import Mathlib

/-!
# toxphone keypad driver

A shallow embedding of the matrix keypad driver (`src/keypad/tphonekp.c`, module
version 1.0, and its earlier revision `src/tphonekp.c`, module version 0.2).

* machine integers are `Nat`/`Int`; the unsigned 32-bit subtraction of the debounce
  test is taken modulo `2^32` explicitly;
* the kernel services the handler calls (`local_irq_save`, `gpio_set_value`,
  `gpio_get_value`, `input_report_key`, `input_sync`, `printk`) are recorded, in call
  order, in a trace of `Event`s;
* the value `gpio_get_value` returns is an input: `rd col` is the level read back
  while column `col` is driven LOW (each column is strobed at most once per call);
* the table read `keyboardKeymap[idx]` is recorded in the trace with its index; for an
  index outside the table the halfword found there is an input, `mem idx`.
-/

namespace Toxphone

/-! ## Constants of the source -/

def NB_COLUMN : Nat := 3
def NB_ROWS : Nat := 5
def LOW : Nat := 0
def HIGH : Nat := 1
def DEBOUNCE_TIME : Nat := 300

/-! Key codes of `linux/input-event-codes.h` used by the keymap. -/

def KEY_1 : Nat := 2
def KEY_2 : Nat := 3
def KEY_3 : Nat := 4
def KEY_4 : Nat := 5
def KEY_5 : Nat := 6
def KEY_6 : Nat := 7
def KEY_7 : Nat := 8
def KEY_8 : Nat := 9
def KEY_9 : Nat := 10
def KEY_0 : Nat := 11
def KEY_R : Nat := 19
def KEY_A : Nat := 30
def KEY_D : Nat := 32
def KEY_B : Nat := 48
def KEY_N : Nat := 49

/-- The table `static unsigned short keyboardKeymap[]`, row-major, 5 rows of 3 columns. -/
def keyboardKeymap : List Nat :=
  [ KEY_1, KEY_2, KEY_3,
    KEY_4, KEY_5, KEY_6,
    KEY_7, KEY_8, KEY_9,
    KEY_A, KEY_0, KEY_D,
    KEY_N, KEY_R, KEY_B ]

/-- The read `keyboardKeymap[idx]` for a C `int` index: inside the table it is the
table entry; outside, the 16-bit value `mem idx` that lies at that address. -/
def keymap_load (mem : Int → Nat) (idx : Int) : Nat :=
  if 0 ≤ idx ∧ idx < 15 then keyboardKeymap.getD idx.toNat 0 else mem idx % 65536

/-- The conversions on the way to the sink: `short key = <unsigned short>` followed by
passing `key` as the `unsigned int code` argument of `input_report_key`. -/
def key_code (v : Nat) : Nat :=
  if v < 32768 then v else v + (4294967296 - 65536)

/-! ## Timestamps -/

/-- The function `millis()`: milliseconds since `epochMilli`, computed in 64 bits from
the wall clock (`sec`, `usec`) and truncated to 32 bits. -/
def millis (epochMilli sec usec : Nat) : Nat :=
  let now := (sec % 2^64 * 1000 + usec / 1000) % 2^64
  ((now + 2^64 - epochMilli % 2^64) % 2^64) % 2^32

/-- The unsigned 32-bit difference `a - b`. -/
def usub32 (a b : Nat) : Nat := (a % 2^32 + 2^32 - b % 2^32) % 2^32

/-! ## FindIndex -/

/-- The loop `while(index<size && a[index]!=value) index++;` of `FindIndex`; the first
argument bounds the number of iterations. A read past the end of `a` (possible only when
`size` exceeds the length of `a`) compares unequal to `value`. -/
def FindIndex_loop (a : List Int) (size : Int) (value : Int) : Nat → Nat → Nat
  | 0, index => index
  | fuel + 1, index =>
    if (index : Int) < size ∧ a[index]? ≠ some value then
      FindIndex_loop a size value fuel (index + 1)
    else index

/-- The function `int FindIndex(int a[], int size, int value)`. The loop leaves after at most
`size` iterations, which is the bound given to `FindIndex_loop`. -/
def FindIndex (a : List Int) (size : Int) (value : Int) : Int :=
  let index := FindIndex_loop a size value size.toNat 0
  if (index : Int) = size then -1 else (index : Int)

/-! ## The interrupt handler -/

/-- Calls made by the handler, and its read of the keymap table. -/
inductive Event where
  | local_irq_save
  | local_irq_restore
  | printk (row : Int)
  | gpio_set_value (col : Nat) (level : Nat)
  | gpio_get_value (pin_value : Int)
  | keymap_read (idx : Int)
  | input_report_key (code : Nat) (value : Nat)
  | input_sync
  deriving DecidableEq, Repr

/-- The driver state the handler sees: the debounce timestamp, the interrupt numbers of
the five rows, and the output level of the three column lines. -/
structure Driver where
  last_interrupt_time : Nat
  irq_pin : List Int
  gpio_col : List Nat
  deriving DecidableEq, Repr

/-- A driver state together with the calls made so far. -/
structure Run where
  drv : Driver
  trace : List Event
  deriving DecidableEq, Repr

/-- Append one event to the trace. -/
def Run.emit (r : Run) (e : Event) : Run := { r with trace := r.trace ++ [e] }

/-- The call `gpio_set_value(gpio_col[col].gpio, level)`. -/
def Run.set_col (r : Run) (col level : Nat) : Run :=
  { drv := { r.drv with gpio_col := r.drv.gpio_col.set col level },
    trace := r.trace ++ [Event.gpio_set_value col level] }

/-- The body of `if(pin_value == LOW)` up to, not including, the `break`/`return`. -/
def report (mem : Int → Nat) (row : Int) (col : Nat) (r : Run) : Run :=
  let idx : Int := (col : Int) + row * (NB_COLUMN : Int)
  let key := key_code (keymap_load mem idx)
  ((((r.emit (Event.keymap_read idx)).emit (Event.input_report_key key 1)).emit
    Event.input_sync).emit (Event.input_report_key key 0)).emit Event.input_sync

/-- The scan loop of `src/keypad/tphonekp.c`:
`for(col=0 ; col<NB_COLUMN ; col++) { ... if(pin_value == LOW) { ...; break; } }`.
The first argument bounds the number of iterations. -/
def scan (mem : Int → Nat) (row : Int) (rd : Nat → Int) : Nat → Nat → Run → Run
  | 0, _, r => r
  | fuel + 1, col, r =>
    if col < NB_COLUMN then
      let r1 := r.set_col col LOW
      let pin_value := rd col
      let r2 := r1.emit (Event.gpio_get_value pin_value)
      let r3 := r2.set_col col HIGH
      if pin_value = (LOW : Int) then
        report mem row col r3
      else
        scan mem row rd fuel (col + 1) r3
    else r

/-- The handler `kpgpio_irq` of `src/keypad/tphonekp.c` (version 1.0).
`interrupt_time` is the value `millis()` returned (an `unsigned int`, below `2^32`);
`rd col` is what `gpio_get_value(dev->gpio)` returns, for the row line of `dev_id`, in
the iteration of column `col`. The handler always returns `IRQ_HANDLED`. -/
def kpgpio_irq (mem : Int → Nat) (d : Driver) (irq : Int) (interrupt_time : Nat)
    (rd : Nat → Int) : Run :=
  let r0 : Run := { drv := d, trace := [Event.local_irq_save] }
  if usub32 interrupt_time d.last_interrupt_time < DEBOUNCE_TIME then
    r0.emit Event.local_irq_restore
  else
    let r1 : Run := { r0 with drv := { d with last_interrupt_time := interrupt_time } }
    let row := FindIndex d.irq_pin NB_ROWS irq
    let r2 := scan mem row rd NB_COLUMN 0 r1
    r2.emit Event.local_irq_restore

/-- The scan loop of `src/tphonekp.c` (version 0.2), whose match branch restores the
interrupts and returns from the handler: `Sum.inl` is that return, `Sum.inr` is the
loop running to its end. -/
def scan_v02 (mem : Int → Nat) (row : Int) (rd : Nat → Int) : Nat → Nat → Run → Run ⊕ Run
  | 0, _, r => Sum.inr r
  | fuel + 1, col, r =>
    if col < NB_COLUMN then
      let r1 := r.set_col col LOW
      let pin_value := rd col
      let r2 := r1.emit (Event.gpio_get_value pin_value)
      let r3 := r2.set_col col HIGH
      if pin_value = (LOW : Int) then
        Sum.inl ((report mem row col r3).emit Event.local_irq_restore)
      else
        scan_v02 mem row rd fuel (col + 1) r3
    else Sum.inr r

/-- The handler `kpgpio_irq` of `src/tphonekp.c` (version 0.2). -/
def kpgpio_irq_v02 (mem : Int → Nat) (d : Driver) (irq : Int) (interrupt_time : Nat)
    (rd : Nat → Int) : Run :=
  let r0 : Run := { drv := d, trace := [Event.local_irq_save] }
  if usub32 interrupt_time d.last_interrupt_time < 300 then
    r0.emit Event.local_irq_restore
  else
    let r1 : Run := { r0 with drv := { d with last_interrupt_time := interrupt_time } }
    let row := FindIndex d.irq_pin NB_ROWS irq
    let r2 := r1.emit (Event.printk row)
    match scan_v02 mem row rd NB_COLUMN 0 r2 with
    | Sum.inl ret => ret
    | Sum.inr r3 => r3.emit Event.local_irq_restore

/-- The state after a successful load: `last_interrupt_time = 0` and the three columns
requested with `GPIOF_OUT_INIT_HIGH`. -/
def startup (irqs : List Int) : Driver :=
  { last_interrupt_time := 0, irq_pin := irqs, gpio_col := [HIGH, HIGH, HIGH] }

/-! ## Observations on traces -/

/-- Calls to the input subsystem (the event sink). -/
def Event.isSink : Event → Bool
  | Event.input_report_key _ _ => true
  | Event.input_sync => true
  | _ => false

/-- Column writes. -/
def Event.isColWrite : Event → Bool
  | Event.gpio_set_value _ _ => true
  | _ => false

/-- Row reads. -/
def Event.isRowRead : Event → Bool
  | Event.gpio_get_value _ => true
  | _ => false

/-- Log lines. -/
def Event.isLog : Event → Bool
  | Event.printk _ => true
  | _ => false

/-- The calls to the sink, in order. -/
def sinkTrace (r : Run) : List Event := r.trace.filter Event.isSink

/-- The trace without its log lines. -/
def eraseLog (tr : List Event) : List Event := tr.filter (fun e => !e.isLog)

/-- The indices at which the keymap table was read. -/
def keymapReads : List Event → List Int
  | [] => []
  | Event.keymap_read idx :: tr => idx :: keymapReads tr
  | _ :: tr => keymapReads tr

/-- The four sink calls for one key: down, sync, up, sync. -/
def keyTap (k : Nat) : List Event :=
  [Event.input_report_key k 1, Event.input_sync, Event.input_report_key k 0, Event.input_sync]

/-- One strobe of column `col` that read back `pin_value`: drive LOW, read, drive HIGH.
Used to write down the result of the scan loop. -/
def strobe (col : Nat) (pin_value : Int) (r : Run) : Run :=
  ((r.set_col col LOW).emit (Event.gpio_get_value pin_value)).set_col col HIGH

/-- The trigger is inside the debounce window: the test of the handler. -/
def inWindow (d : Driver) (interrupt_time : Nat) : Prop :=
  usub32 interrupt_time d.last_interrupt_time < DEBOUNCE_TIME

instance (d : Driver) (t : Nat) : Decidable (inWindow d t) := by
  unfold inWindow; infer_instance

/-- The trace of a rejected trigger: interrupts masked and unmasked, nothing else. -/
def rejectedTrace : List Event := [Event.local_irq_save, Event.local_irq_restore]

/-! ## Module initialisation -/

/-- The errno values of `linux/errno.h` used by `tphonekp_init`. -/
def EBUSY : Int := 16
def ENOMEM : Int := 12

/-- What `tphonekp_init` acquires: the two GPIO arrays, one interrupt per row, and the
input device. -/
inductive Resource where
  | gpio_col
  | gpio_rows
  | irq (i : Nat)
  | input_dev
  deriving DecidableEq, Repr

/-- The results of the external calls of `tphonekp_init`: the values returned by
`gpio_request_array` for the columns and for the rows, by `request_irq` for row `i`, whether
`input_allocate_device` returned a device, and the value returned by
`input_register_device`. -/
structure InitEnv where
  col_request : Int
  row_request : Int
  irq_request : Nat → Int
  input_allocated : Bool
  input_register : Int

/-- The resources held (oldest first) and the release calls made so far (in call order). -/
structure InitState where
  held : List Resource
  released : List Resource
  deriving DecidableEq, Repr

/-- A successful request. -/
def InitState.acquire (st : InitState) (res : Resource) : InitState :=
  { st with held := st.held ++ [res] }

/-- A call of `gpio_free_array`, `free_irq` or `input_free_device`. -/
def InitState.release (st : InitState) (res : Resource) : InitState :=
  { held := st.held.erase res, released := st.released ++ [res] }

/-- The value `tphonekp_init` returns and the resources at that point. -/
structure InitResult where
  ret : Int
  st : InitState
  deriving DecidableEq, Repr

/-- The loop `for(i=0 ; i<NB_ROWS ; i++) { ... request_irq ... }`. `Sum.inl (i, st)` is the
`goto err_free_irq` of a failed request, with `i` already decremented by `i = i-1`;
`Sum.inr st` is the loop running to its end (where `i = NB_ROWS`). The first argument
bounds the number of iterations. -/
def request_irqs (env : InitEnv) : Nat → Nat → InitState → (Int × InitState) ⊕ InitState
  | 0, _, st => Sum.inr st
  | fuel + 1, i, st =>
    if i < NB_ROWS then
      if env.irq_request i ≠ 0 then
        Sum.inl ((i : Int) - 1, st)
      else
        request_irqs env fuel (i + 1) (st.acquire (Resource.irq i))
    else Sum.inr st

/-- The loop `for(i = i ; i == 0 ; i = i-1) { free_irq(irq_pin[i], &gpio_rows[i]); }` at
`err_free_irq`. The first argument bounds the number of iterations. -/
def free_irqs : Nat → Int → InitState → InitState
  | 0, _, st => st
  | fuel + 1, i, st =>
    if i = 0 then free_irqs fuel (i - 1) (st.release (Resource.irq i.toNat)) else st

/-- The label `err_return`. -/
def err_return (error : Int) (st : InitState) : InitResult := { ret := error, st := st }

/-- The label `err_free_columns`, falling through to `err_return`. -/
def err_free_columns (error : Int) (st : InitState) : InitResult :=
  err_return error (st.release Resource.gpio_col)

/-- The label `err_free_irq`, falling through to `err_free_columns`. -/
def err_free_irq (error : Int) (i : Int) (st : InitState) : InitResult :=
  err_free_columns error (free_irqs 2 i st)

/-- The label `err_free_dev`, falling through to `err_free_irq`. -/
def err_free_dev (error : Int) (i : Int) (st : InitState) : InitResult :=
  err_free_irq error i (st.release Resource.input_dev)

/-- The function `tphonekp_init` of `src/keypad/tphonekp.c` (version 1.0). After the
interrupt loop `i = NB_ROWS`; after the `__set_bit` loop `i = NB_COLUMN * NB_ROWS`. -/
def tphonekp_init (env : InitEnv) : InitResult :=
  let st0 : InitState := { held := [], released := [] }
  if env.col_request ≠ 0 then err_return env.col_request st0
  else
    let st1 := st0.acquire Resource.gpio_col
    if env.row_request ≠ 0 then err_free_columns env.row_request st1
    else
      let st2 := st1.acquire Resource.gpio_rows
      match request_irqs env NB_ROWS 0 st2 with
      | Sum.inl (i, st3) => err_free_irq (-EBUSY) i st3
      | Sum.inr st3 =>
        if env.input_allocated = false then err_free_irq (-ENOMEM) (NB_ROWS : Int) st3
        else
          let st4 := st3.acquire Resource.input_dev
          if env.input_register ≠ 0 then
            err_free_dev env.input_register ((NB_COLUMN * NB_ROWS : Nat) : Int) st4
          else { ret := 0, st := st4 }

/-- The function `tphonekp_init` of `src/tphonekp.c` (version 0.2): a failed GPIO request
is only logged, and the error labels end in `return error` after the `free_irq` loop. -/
def tphonekp_init_v02 (env : InitEnv) : InitResult :=
  let st0 : InitState := { held := [], released := [] }
  let st1 := if env.col_request ≠ 0 then st0 else st0.acquire Resource.gpio_col
  let st2 := if env.row_request ≠ 0 then st1 else st1.acquire Resource.gpio_rows
  match request_irqs env NB_ROWS 0 st2 with
  | Sum.inl (i, st3) => { ret := -EBUSY, st := free_irqs 2 i st3 }
  | Sum.inr st3 =>
    if env.input_allocated = false then
      { ret := -ENOMEM, st := free_irqs 2 (NB_ROWS : Int) st3 }
    else
      let st4 := st3.acquire Resource.input_dev
      if env.input_register ≠ 0 then
        { ret := env.input_register,
          st := free_irqs 2 ((NB_COLUMN * NB_ROWS : Nat) : Int)
            (st4.release Resource.input_dev) }
      else { ret := 0, st := st4 }

/-- Every external call succeeds except `request_irq` for row `k`. -/
def irqFails (k : Nat) : InitEnv :=
  { col_request := 0, row_request := 0, irq_request := fun i => if i = k then -16 else 0,
    input_allocated := true, input_register := 0 }

/-- Every external call succeeds except `input_allocate_device`. -/
def allocFails : InitEnv :=
  { col_request := 0, row_request := 0, irq_request := fun _ => 0,
    input_allocated := false, input_register := 0 }

/-- Every external call succeeds except `input_register_device`, which returns `-ENOMEM`. -/
def registerFails : InitEnv :=
  { col_request := 0, row_request := 0, irq_request := fun _ => 0,
    input_allocated := true, input_register := -12 }

/-! ## The iteration bounds are never what stops a loop -/

theorem FindIndex_loop_spec (a : List Int) (size value : Int) :
    ∀ (fuel index : Nat), size ≤ ((fuel + index : Nat) : Int) →
      index ≤ FindIndex_loop a size value fuel index ∧
      (∀ j, index ≤ j → j < FindIndex_loop a size value fuel index →
        (j : Int) < size ∧ a[j]? ≠ some value) ∧
      ¬ (((FindIndex_loop a size value fuel index : Nat) : Int) < size ∧
          a[FindIndex_loop a size value fuel index]? ≠ some value) := by
  intro fuel
  induction fuel with
  | zero =>
    intro index h
    simp only [FindIndex_loop]
    refine ⟨le_refl _, ?_, ?_⟩
    · intro j h1 h2; omega
    · intro hc; simp at h; omega
  | succ fuel ih =>
    intro index h
    simp only [FindIndex_loop]
    split
    · rename_i hg
      have h2 := ih (index + 1) (by push_cast at h ⊢; omega)
      refine ⟨by omega, ?_, h2.2.2⟩
      intro j hj1 hj2
      by_cases hj : j = index
      · subst hj; exact hg
      · exact h2.2.1 j (by omega) hj2
    · rename_i hg
      refine ⟨le_refl _, ?_, hg⟩
      intro j h1 h2; omega

/-- Any bound of at least `size - index` iterations gives the same result of the search
loop: the loop is left by its own condition. -/
theorem FindIndex_loop_fuel (a : List Int) (size value : Int) :
    ∀ (fuel index : Nat), size ≤ ((fuel + index : Nat) : Int) →
      FindIndex_loop a size value (fuel + 1) index = FindIndex_loop a size value fuel index := by
  intro fuel
  induction fuel with
  | zero =>
    intro index h
    simp only [FindIndex_loop]
    split
    · rename_i hg; simp at h; omega
    · rfl
  | succ fuel ih =>
    intro index h
    rw [FindIndex_loop]
    split
    · rename_i hg
      rw [ih (index + 1) (by push_cast at h ⊢; omega)]
      conv_rhs => rw [FindIndex_loop]
      rw [if_pos hg]
    · rename_i hg
      conv_rhs => rw [FindIndex_loop]
      rw [if_neg hg]

/-- Any bound of at least `NB_COLUMN - col` iterations gives the same result of the scan
loop. -/
theorem scan_fuel (mem : Int → Nat) (row : Int) (rd : Nat → Int) :
    ∀ (fuel col : Nat) (r : Run), NB_COLUMN ≤ fuel + col →
      scan mem row rd (fuel + 1) col r = scan mem row rd fuel col r := by
  intro fuel
  induction fuel with
  | zero =>
    intro col r h
    simp only [scan]
    split
    · omega
    · rfl
  | succ fuel ih =>
    intro col r h
    rw [scan]
    conv_rhs => rw [scan]
    split
    · simp only []
      rw [ih (col + 1) _ (by omega)]
    · rfl

theorem scan_v02_fuel (mem : Int → Nat) (row : Int) (rd : Nat → Int) :
    ∀ (fuel col : Nat) (r : Run), NB_COLUMN ≤ fuel + col →
      scan_v02 mem row rd (fuel + 1) col r = scan_v02 mem row rd fuel col r := by
  intro fuel
  induction fuel with
  | zero =>
    intro col r h
    simp only [scan_v02]
    split
    · omega
    · rfl
  | succ fuel ih =>
    intro col r h
    rw [scan_v02]
    conv_rhs => rw [scan_v02]
    split
    · simp only []
      rw [ih (col + 1) _ (by omega)]
    · rfl

theorem request_irqs_fuel (env : InitEnv) :
    ∀ (fuel i : Nat) (st : InitState), NB_ROWS ≤ fuel + i →
      request_irqs env (fuel + 1) i st = request_irqs env fuel i st := by
  intro fuel
  induction fuel with
  | zero =>
    intro i st h
    simp only [request_irqs]
    split
    · omega
    · rfl
  | succ fuel ih =>
    intro i st h
    rw [request_irqs]
    conv_rhs => rw [request_irqs]
    split
    · split
      · rfl
      · rw [ih (i + 1) _ (by omega)]
    · rfl

/-- The `free_irq` loop runs its body at most once: two iterations are as good as any
larger bound. -/
theorem free_irqs_fuel (fuel : Nat) (i : Int) (st : InitState) :
    free_irqs (fuel + 2) i st = free_irqs 2 i st := by
  simp only [free_irqs]
  split
  · rename_i h
    subst h
    cases fuel with
    | zero => rfl
    | succ n => simp [free_irqs]
  · rfl

/-- The value of `millis()` is an unsigned 32-bit number. -/
theorem millis_lt (epochMilli sec usec : Nat) : millis epochMilli sec usec < 2^32 := by
  unfold millis
  exact Nat.mod_lt _ (by norm_num)

/-! ## FindIndex is a first-occurrence search -/

theorem FindIndex_char (a : List Int) (n : Nat) (v : Int) :
    ∃ r : Nat, r ≤ n ∧ (∀ j, j < r → a[j]? ≠ some v) ∧ (r < n → a[r]? = some v) ∧
      FindIndex a (n : Int) v = if r = n then -1 else (r : Int) := by
  have h := FindIndex_loop_spec a (n : Int) v n 0 (by push_cast; omega)
  refine ⟨FindIndex_loop a (n : Int) v n 0, ?_, ?_, ?_, ?_⟩
  · by_contra hc
    have := (h.2.1 n (Nat.zero_le _) (by omega)).1
    omega
  · intro j hj
    exact (h.2.1 j (Nat.zero_le _) hj).2
  · intro hr
    by_contra hc
    exact h.2.2 ⟨by exact_mod_cast hr, hc⟩
  · simp only [FindIndex, Int.toNat_ofNat, Nat.cast_inj]

theorem FindIndex_not_found (a : List Int) (n : Nat) (v : Int)
    (h : ∀ i, i < n → a[i]? ≠ some v) : FindIndex a (n : Int) v = -1 := by
  obtain ⟨r, hr1, _, hr3, hr4⟩ := FindIndex_char a n v
  rw [hr4]
  by_cases hrn : r = n
  · simp [hrn]
  · exact absurd (hr3 (by omega)) (h r (by omega))

theorem FindIndex_found (a : List Int) (n : Nat) (v : Int) (i : Nat) (hi : i < n)
    (hv : a[i]? = some v) (hfirst : ∀ j, j < i → a[j]? ≠ some v) :
    FindIndex a (n : Int) v = (i : Int) := by
  obtain ⟨r, hr1, hr2, hr3, hr4⟩ := FindIndex_char a n v
  rw [hr4]
  have hri : r = i := by
    rcases Nat.lt_trichotomy r i with hlt | heq | hgt
    · exact absurd (hr3 (by omega)) (hfirst r hlt)
    · exact heq
    · exact absurd hv (hr2 i hgt)
  subst hri
  simp [Nat.ne_of_lt hi]

/-- C9: for every array `a`, size `0 ≤ n ≤ length a` and value `v`, `FindIndex a n v` is
`-1` exactly when no index below `n` holds `v`; otherwise it is the smallest index below
`n` that holds `v` (so a valid index, with `a[result] = v`). -/
theorem FindIndex_first_occurrence (a : List Int) (n : Nat) (hn : n ≤ a.length) (v : Int) :
    (FindIndex a (n : Int) v = -1 ↔ ∀ i, i < n → a[i]? ≠ some v) ∧
    (FindIndex a (n : Int) v ≠ -1 →
      ∃ i : Nat, FindIndex a (n : Int) v = (i : Int) ∧ i < n ∧
        (∃ h : i < a.length, a[i] = v) ∧ ∀ j, j < i → a[j]? ≠ some v) := by
  obtain ⟨r, hr1, hr2, hr3, hr4⟩ := FindIndex_char a n v
  by_cases hrn : r = n
  · have hres : FindIndex a (n : Int) v = -1 := by rw [hr4]; simp [hrn]
    refine ⟨⟨fun _ i hi => hr2 i (by omega), fun _ => hres⟩, fun hne => absurd hres hne⟩
  · have hres : FindIndex a (n : Int) v = (r : Int) := by rw [hr4]; simp [hrn]
    have hlt : r < n := by omega
    have hv := hr3 hlt
    refine ⟨⟨fun h => ?_, fun h => absurd hv (h r hlt)⟩, fun _ => ⟨r, hres, hlt, ?_, hr2⟩⟩
    · rw [hres] at h; omega
    · have hlen : r < a.length := by omega
      refine ⟨hlen, ?_⟩
      rw [List.getElem?_eq_getElem hlen] at hv
      exact Option.some.inj hv

theorem FindIndex_first_occurrence_witness :
    (FindIndex [14, 15, 18, 15, 24] ((4 : Nat) : Int) 15 = -1 ↔
      ∀ i, i < 4 → ([14, 15, 18, 15, 24] : List Int)[i]? ≠ some 15) ∧
    (FindIndex [14, 15, 18, 15, 24] ((4 : Nat) : Int) 15 ≠ -1 →
      ∃ i : Nat, FindIndex [14, 15, 18, 15, 24] ((4 : Nat) : Int) 15 = (i : Int) ∧ i < 4 ∧
        (∃ h : i < ([14, 15, 18, 15, 24] : List Int).length,
          ([14, 15, 18, 15, 24] : List Int)[i] = 15) ∧
        ∀ j, j < i → ([14, 15, 18, 15, 24] : List Int)[j]? ≠ some 15) :=
  FindIndex_first_occurrence [14, 15, 18, 15, 24] 4 (by decide) 15

/-! ## The scan loop, written out -/

theorem scan_eq (mem : Int → Nat) (row : Int) (rd : Nat → Int) (r : Run) :
    scan mem row rd NB_COLUMN 0 r =
      if rd 0 = 0 then report mem row 0 (strobe 0 (rd 0) r)
      else if rd 1 = 0 then report mem row 1 (strobe 1 (rd 1) (strobe 0 (rd 0) r))
      else if rd 2 = 0 then
        report mem row 2 (strobe 2 (rd 2) (strobe 1 (rd 1) (strobe 0 (rd 0) r)))
      else strobe 2 (rd 2) (strobe 1 (rd 1) (strobe 0 (rd 0) r)) := by
  simp only [scan, NB_COLUMN, LOW, strobe, Nat.cast_zero]
  split_ifs <;> first | rfl | omega

theorem scan_v02_eq (mem : Int → Nat) (row : Int) (rd : Nat → Int) (r : Run) :
    scan_v02 mem row rd NB_COLUMN 0 r =
      if rd 0 = 0 then
        Sum.inl ((report mem row 0 (strobe 0 (rd 0) r)).emit Event.local_irq_restore)
      else if rd 1 = 0 then
        Sum.inl ((report mem row 1 (strobe 1 (rd 1) (strobe 0 (rd 0) r))).emit
          Event.local_irq_restore)
      else if rd 2 = 0 then
        Sum.inl ((report mem row 2 (strobe 2 (rd 2) (strobe 1 (rd 1) (strobe 0 (rd 0) r)))).emit
          Event.local_irq_restore)
      else Sum.inr (strobe 2 (rd 2) (strobe 1 (rd 1) (strobe 0 (rd 0) r))) := by
  simp only [scan_v02, NB_COLUMN, LOW, strobe, Nat.cast_zero]
  split_ifs <;> first | rfl | omega

theorem key_code_keymap (mem : Int → Nat) (r c : Nat) (hr : r < 5) (hc : c < 3) :
    key_code (keymap_load mem ((c : Int) + (r : Int) * (NB_COLUMN : Int))) =
      keyboardKeymap.getD (r * 3 + c) 0 := by
  interval_cases r <;> interval_cases c <;>
    simp [keymap_load, key_code, keyboardKeymap, NB_COLUMN, KEY_1, KEY_2, KEY_3, KEY_4, KEY_5,
      KEY_6, KEY_7, KEY_8, KEY_9, KEY_0, KEY_A, KEY_D, KEY_N, KEY_R, KEY_B]

theorem usub32_of_le (a b : Nat) (ha : a < 2^32) (hb : b ≤ a) : usub32 a b = a - b := by
  unfold usub32
  have hb2 : b < 2^32 := by omega
  rw [Nat.mod_eq_of_lt ha, Nat.mod_eq_of_lt hb2]
  have : a + 2^32 - b = (a - b) + 2^32 := by omega
  rw [this, Nat.add_mod_right]
  exact Nat.mod_eq_of_lt (by omega)

/-! ## The three outcomes of one invocation -/

theorem kpgpio_irq_rejected (mem : Int → Nat) (d : Driver) (irq : Int) (now : Nat)
    (rd : Nat → Int) (hw : inWindow d now) :
    kpgpio_irq mem d irq now rd = { drv := d, trace := rejectedTrace } := by
  unfold inWindow at hw
  simp [kpgpio_irq, hw, Run.emit, rejectedTrace]

theorem kpgpio_irq_accepted (mem : Int → Nat) (d : Driver) (irq : Int) (now : Nat)
    (rd : Nat → Int) (hw : ¬ inWindow d now) :
    (kpgpio_irq mem d irq now rd).drv.last_interrupt_time = now ∧
    (kpgpio_irq mem d irq now rd).drv.irq_pin = d.irq_pin ∧
    Event.gpio_set_value 0 LOW ∈ (kpgpio_irq mem d irq now rd).trace ∧
    (kpgpio_irq mem d irq now rd).trace ≠ rejectedTrace := by
  unfold inWindow at hw
  simp only [kpgpio_irq, hw, if_false, scan_eq]
  split_ifs <;> simp [Run.emit, report, strobe, Run.set_col, rejectedTrace]

theorem inWindow_iff (d : Driver) (now : Nat) (hnow : now < 2^32)
    (hle : d.last_interrupt_time ≤ now) :
    inWindow d now ↔ now - d.last_interrupt_time < 300 := by
  unfold inWindow
  rw [usub32_of_le now d.last_interrupt_time hnow hle]
  rfl

theorem kpgpio_irq_unmatched (mem : Int → Nat) (d : Driver) (irq : Int) (now : Nat)
    (rd : Nat → Int) (hw : ¬ inWindow d now) (hrd : ∀ j, j < 3 → rd j ≠ 0) :
    sinkTrace (kpgpio_irq mem d irq now rd) = [] ∧
    keymapReads (kpgpio_irq mem d irq now rd).trace = [] := by
  unfold inWindow at hw
  have h0 := hrd 0 (by decide)
  have h1 := hrd 1 (by decide)
  have h2 := hrd 2 (by decide)
  simp [kpgpio_irq, hw, scan_eq, h0, h1, h2, sinkTrace, keymapReads, Run.emit, strobe,
    Run.set_col, Event.isSink]

theorem kpgpio_irq_matched (mem : Int → Nat) (d : Driver) (irq : Int) (now : Nat)
    (rd : Nat → Int) (hw : ¬ inWindow d now) (cs : Nat) (hcs : cs < 3) (hlow : rd cs = 0)
    (hfirst : ∀ j, j < cs → rd j ≠ 0) :
    sinkTrace (kpgpio_irq mem d irq now rd) =
      keyTap (key_code (keymap_load mem
        ((cs : Int) + FindIndex d.irq_pin NB_ROWS irq * (NB_COLUMN : Int)))) ∧
    keymapReads (kpgpio_irq mem d irq now rd).trace =
      [(cs : Int) + FindIndex d.irq_pin NB_ROWS irq * (NB_COLUMN : Int)] ∧
    ∀ col lvl, Event.gpio_set_value col lvl ∈ (kpgpio_irq mem d irq now rd).trace →
      col ≤ cs := by
  unfold inWindow at hw
  interval_cases cs
  · simp [kpgpio_irq, hw, scan_eq, hlow, sinkTrace, keymapReads, Run.emit, strobe,
      Run.set_col, Event.isSink, report, keyTap]
    omega
  · have h0 := hfirst 0 (by decide)
    simp [kpgpio_irq, hw, scan_eq, hlow, h0, sinkTrace, keymapReads, Run.emit, strobe,
      Run.set_col, Event.isSink, report, keyTap]
    omega
  · have h0 := hfirst 0 (by decide)
    have h1 := hfirst 1 (by decide)
    simp [kpgpio_irq, hw, scan_eq, hlow, h0, h1, sinkTrace, keymapReads, Run.emit, strobe,
      Run.set_col, Event.isSink, report, keyTap]
    omega

theorem FindIndex_nodup (a : List Int) (n r : Nat) (hr : r < n) (hlen : n ≤ a.length)
    (hnd : a.Nodup) : FindIndex a (n : Int) (a.getD r 0) = (r : Int) := by
  have hrl : r < a.length := by omega
  have hget : a.getD r 0 = a[r] := by
    rw [List.getD_eq_getElem?_getD, List.getElem?_eq_getElem hrl]; rfl
  rw [hget]
  apply FindIndex_found a n a[r] r hr (List.getElem?_eq_getElem hrl)
  intro j hj hc
  have hjl : j < a.length := by omega
  rw [List.getElem?_eq_getElem hjl] at hc
  have := (List.Nodup.getElem_inj_iff hnd).1 (Option.some.inj hc)
  omega

/-- C1: with `last ≤ now` (both unsigned 32-bit), `kpgpio_irq` rejects the trigger exactly
when `now - last < 300`; a rejected trigger leaves the driver state unchanged and makes no
column write, no row read and no sink call; an accepted one sets
`last_interrupt_time = now` and starts the scan, whatever the scan reads. -/
theorem debounce_gate_step (mem : Int → Nat) (d : Driver) (irq : Int) (now : Nat)
    (rd : Nat → Int) (hnow : now < 2^32) (hle : d.last_interrupt_time ≤ now) :
    ((kpgpio_irq mem d irq now rd).trace = rejectedTrace ↔
      now - d.last_interrupt_time < 300) ∧
    (now - d.last_interrupt_time < 300 →
      (kpgpio_irq mem d irq now rd).drv = d ∧
      ∀ e, e ∈ (kpgpio_irq mem d irq now rd).trace →
        e.isColWrite = false ∧ e.isRowRead = false ∧ e.isSink = false) ∧
    (300 ≤ now - d.last_interrupt_time →
      (kpgpio_irq mem d irq now rd).drv.last_interrupt_time = now ∧
      (kpgpio_irq mem d irq now rd).drv.irq_pin = d.irq_pin ∧
      Event.gpio_set_value 0 LOW ∈ (kpgpio_irq mem d irq now rd).trace) := by
  have hiff := inWindow_iff d now hnow hle
  by_cases hw : inWindow d now
  · have hlt := hiff.1 hw
    rw [kpgpio_irq_rejected mem d irq now rd hw]
    refine ⟨⟨fun _ => hlt, fun _ => rfl⟩, fun _ => ⟨rfl, ?_⟩, fun h => by omega⟩
    intro e he
    simp only [rejectedTrace, List.mem_cons, List.mem_singleton, List.not_mem_nil, or_false] at he
    rcases he with rfl | rfl <;> exact ⟨rfl, rfl, rfl⟩
  · have hge : ¬ now - d.last_interrupt_time < 300 := fun h => hw (hiff.2 h)
    have hacc := kpgpio_irq_accepted mem d irq now rd hw
    exact ⟨⟨fun h => absurd h hacc.2.2.2, fun h => absurd h hge⟩, fun h => absurd h hge,
      fun _ => ⟨hacc.1, hacc.2.1, hacc.2.2.1⟩⟩

theorem debounce_gate_step_witness :
    ((kpgpio_irq (fun _ => 0) (startup [184, 185, 188, 193, 194]) 188 450
      (fun _ => 1)).trace = rejectedTrace ↔
      450 - (startup [184, 185, 188, 193, 194]).last_interrupt_time < 300) ∧
    (450 - (startup [184, 185, 188, 193, 194]).last_interrupt_time < 300 →
      (kpgpio_irq (fun _ => 0) (startup [184, 185, 188, 193, 194]) 188 450 (fun _ => 1)).drv =
        startup [184, 185, 188, 193, 194] ∧
      ∀ e, e ∈ (kpgpio_irq (fun _ => 0) (startup [184, 185, 188, 193, 194]) 188 450
          (fun _ => 1)).trace →
        e.isColWrite = false ∧ e.isRowRead = false ∧ e.isSink = false) ∧
    (300 ≤ 450 - (startup [184, 185, 188, 193, 194]).last_interrupt_time →
      (kpgpio_irq (fun _ => 0) (startup [184, 185, 188, 193, 194]) 188 450
        (fun _ => 1)).drv.last_interrupt_time = 450 ∧
      (kpgpio_irq (fun _ => 0) (startup [184, 185, 188, 193, 194]) 188 450
        (fun _ => 1)).drv.irq_pin = (startup [184, 185, 188, 193, 194]).irq_pin ∧
      Event.gpio_set_value 0 LOW ∈
        (kpgpio_irq (fun _ => 0) (startup [184, 185, 188, 193, 194]) 188 450
          (fun _ => 1)).trace) :=
  debounce_gate_step (fun _ => 0) (startup [184, 185, 188, 193, 194]) 188 450 (fun _ => 1)
    (by decide) (by decide)

/-- C2: with `irq_pin` holding 5 distinct handles, for every row `r < 5` and column
`c < 3`, a trigger with `irq = irq_pin[r]` that passes the debounce test and reads LOW
only while column `c` is strobed sends to the sink exactly down(k), sync, up(k), sync with
`k = keyboardKeymap[r*3 + c]`; the index is inside the 15-entry table and is the only
table read. -/
theorem decode_keymap (mem : Int → Nat) (d : Driver) (now : Nat) (rd : Nat → Int)
    (r c : Nat) (hr : r < 5) (hc : c < 3) (hlen : d.irq_pin.length = 5)
    (hnd : d.irq_pin.Nodup) (hw : ¬ inWindow d now)
    (hrd : ∀ j, j < 3 → (rd j = 0 ↔ j = c)) :
    r * 3 + c < keyboardKeymap.length ∧
    sinkTrace (kpgpio_irq mem d (d.irq_pin.getD r 0) now rd) =
      keyTap (keyboardKeymap.getD (r * 3 + c) 0) ∧
    keymapReads (kpgpio_irq mem d (d.irq_pin.getD r 0) now rd).trace =
      [((r * 3 + c : Nat) : Int)] := by
  have hrow : FindIndex d.irq_pin NB_ROWS (d.irq_pin.getD r 0) = (r : Int) :=
    FindIndex_nodup d.irq_pin 5 r hr (by omega) hnd
  have hm := kpgpio_irq_matched mem d (d.irq_pin.getD r 0) now rd hw c hc
    ((hrd c hc).2 rfl) (fun j hj hz => by have := (hrd j (by omega)).1 hz; omega)
  rw [hrow] at hm
  refine ⟨?_, ?_, ?_⟩
  · simp only [keyboardKeymap, List.length_cons, List.length_nil]; omega
  · rw [hm.1, key_code_keymap mem r c hr hc]
  · rw [hm.2.1]; simp only [NB_COLUMN]; push_cast; congr 1; ring

theorem decode_keymap_witness :
    3 * 3 + 1 < keyboardKeymap.length ∧
    sinkTrace (kpgpio_irq (fun _ => 0) (startup [184, 185, 188, 193, 194])
      (([184, 185, 188, 193, 194] : List Int).getD 3 0) 1000
      (fun j => if j = 1 then 0 else 1)) = keyTap (keyboardKeymap.getD (3 * 3 + 1) 0) ∧
    keymapReads (kpgpio_irq (fun _ => 0) (startup [184, 185, 188, 193, 194])
      (([184, 185, 188, 193, 194] : List Int).getD 3 0) 1000
      (fun j => if j = 1 then 0 else 1)).trace = [((3 * 3 + 1 : Nat) : Int)] :=
  decode_keymap (fun _ => 0) (startup [184, 185, 188, 193, 194]) 1000
    (fun j => if j = 1 then 0 else 1) 3 1 (by decide) (by decide) (by decide) (by decide)
    (by decide) (by decide)

/-- C3: for every accepted trigger on a row `r < 5` and every read-back assignment in
which some strobe reads LOW, there is a lowest column `cs` reading LOW; the sink gets the
key `keyboardKeymap[r*3 + cs]` exactly once, and no column above `cs` is written. -/
theorem first_match (mem : Int → Nat) (d : Driver) (irq : Int) (now : Nat) (rd : Nat → Int)
    (r : Nat) (hr : r < 5) (hrow : FindIndex d.irq_pin NB_ROWS irq = (r : Int))
    (hw : ¬ inWindow d now) (hlow : ∃ j, j < 3 ∧ rd j = 0) :
    ∃ cs, cs < 3 ∧ rd cs = 0 ∧ (∀ j, j < cs → rd j ≠ 0) ∧
      sinkTrace (kpgpio_irq mem d irq now rd) = keyTap (keyboardKeymap.getD (r * 3 + cs) 0) ∧
      ∀ col lvl, Event.gpio_set_value col lvl ∈ (kpgpio_irq mem d irq now rd).trace →
        col ≤ cs := by
  have hex : ∃ j, j < 3 ∧ rd j = 0 := hlow
  classical
  refine ⟨Nat.find hex, (Nat.find_spec hex).1, (Nat.find_spec hex).2, ?_, ?_⟩
  · intro j hj hz
    exact Nat.find_min hex hj ⟨by have := (Nat.find_spec hex).1; omega, hz⟩
  · have hm := kpgpio_irq_matched mem d irq now rd hw (Nat.find hex) (Nat.find_spec hex).1
      (Nat.find_spec hex).2
      (fun j hj hz => Nat.find_min hex hj ⟨by have := (Nat.find_spec hex).1; omega, hz⟩)
    rw [hrow] at hm
    exact ⟨by rw [hm.1, key_code_keymap mem r _ hr (Nat.find_spec hex).1], hm.2.2⟩

theorem first_match_witness :
    ∃ cs, cs < 3 ∧ (fun j => if j = 2 then (1 : Int) else 0) cs = 0 ∧
      (∀ j, j < cs → (fun j => if j = 2 then (1 : Int) else 0) j ≠ 0) ∧
      sinkTrace (kpgpio_irq (fun _ => 0) (startup [184, 185, 188, 193, 194]) 188 1000
        (fun j => if j = 2 then (1 : Int) else 0)) =
        keyTap (keyboardKeymap.getD (2 * 3 + cs) 0) ∧
      ∀ col lvl, Event.gpio_set_value col lvl ∈
        (kpgpio_irq (fun _ => 0) (startup [184, 185, 188, 193, 194]) 188 1000
          (fun j => if j = 2 then (1 : Int) else 0)).trace → col ≤ cs :=
  first_match (fun _ => 0) (startup [184, 185, 188, 193, 194]) 188 1000
    (fun j => if j = 2 then (1 : Int) else 0) 2 (by decide) (by decide) (by decide)
    ⟨0, by decide, by decide⟩

/-- C4: for every invocation the number of sink calls is 0 when the trigger is rejected
by the debounce test, 0 when it is accepted and no strobe reads LOW, and 4 in every other
case; so the sink trace is empty or one down/sync/up/sync quadruple for one key code. -/
theorem no_spurious_events (mem : Int → Nat) (d : Driver) (irq : Int) (now : Nat)
    (rd : Nat → Int) :
    (inWindow d now → (sinkTrace (kpgpio_irq mem d irq now rd)).length = 0) ∧
    (¬ inWindow d now → (∀ j, j < 3 → rd j ≠ 0) →
      (sinkTrace (kpgpio_irq mem d irq now rd)).length = 0) ∧
    (¬ inWindow d now → (∃ j, j < 3 ∧ rd j = 0) →
      (sinkTrace (kpgpio_irq mem d irq now rd)).length = 4) ∧
    (sinkTrace (kpgpio_irq mem d irq now rd) = [] ∨
      ∃ k, sinkTrace (kpgpio_irq mem d irq now rd) = keyTap k) := by
  have hrej : inWindow d now → sinkTrace (kpgpio_irq mem d irq now rd) = [] := by
    intro hw
    rw [kpgpio_irq_rejected mem d irq now rd hw]
    rfl
  have hmat : ¬ inWindow d now → (∃ j, j < 3 ∧ rd j = 0) →
      ∃ k, sinkTrace (kpgpio_irq mem d irq now rd) = keyTap k := by
    intro hw hex
    exact ⟨_, (kpgpio_irq_matched mem d irq now rd hw (Nat.find hex) (Nat.find_spec hex).1
      (Nat.find_spec hex).2
      (fun j hj hz => Nat.find_min hex hj ⟨by have := (Nat.find_spec hex).1; omega, hz⟩)).1⟩
  refine ⟨fun hw => by rw [hrej hw]; rfl, fun hw hrd => ?_, fun hw hex => ?_, ?_⟩
  · rw [(kpgpio_irq_unmatched mem d irq now rd hw hrd).1]; rfl
  · obtain ⟨k, hk⟩ := hmat hw hex
    rw [hk]; rfl
  · by_cases hw : inWindow d now
    · exact Or.inl (hrej hw)
    · by_cases hrd : ∀ j, j < 3 → rd j ≠ 0
      · exact Or.inl (kpgpio_irq_unmatched mem d irq now rd hw hrd).1
      · refine Or.inr (hmat hw ?_)
        by_contra hc
        exact hrd (fun j hj hz => hc ⟨j, hj, hz⟩)

theorem second_call (mem : Int → Nat) (d : Driver) (irq : Int) (rd : Nat → Int)
    (t1 t2 : Nat) (hd : d.last_interrupt_time = t1) (h12 : t1 < t2) (h2 : t2 < 2^32) :
    (t2 - t1 < 300 →
      (kpgpio_irq mem d irq t2 rd).trace = rejectedTrace ∧
      (kpgpio_irq mem d irq t2 rd).drv.last_interrupt_time = t1) ∧
    (300 ≤ t2 - t1 →
      (kpgpio_irq mem d irq t2 rd).trace ≠ rejectedTrace ∧
      (kpgpio_irq mem d irq t2 rd).drv.last_interrupt_time = t2) := by
  have hiff := inWindow_iff d t2 h2 (by omega)
  rw [hd] at hiff
  constructor
  · intro h
    have hrej := kpgpio_irq_rejected mem d irq t2 rd (hiff.2 h)
    rw [hrej]
    exact ⟨rfl, hd⟩
  · intro h
    have ha := kpgpio_irq_accepted mem d irq t2 rd (fun hc => by have := hiff.1 hc; omega)
    exact ⟨ha.2.2.2, ha.1⟩

/-- C5 as stated fails: from the start-up state, timestamps 100 then 200 are both inside
the window that starts at load; the first call is rejected, not accepted, and
`last_interrupt_time` stays 0 instead of becoming 100. -/
theorem two_call_from_startup_counterexample :
    (100 < 200 ∧ 200 - 100 < 300) ∧
    (kpgpio_irq (fun _ => 0) (startup [184, 185, 188, 193, 194]) 184 100 (fun _ => 0)).trace =
      rejectedTrace ∧
    (kpgpio_irq (fun _ => 0)
      (kpgpio_irq (fun _ => 0) (startup [184, 185, 188, 193, 194]) 184 100 (fun _ => 0)).drv
      184 200 (fun _ => 0)).drv.last_interrupt_time = 0 ∧
    (kpgpio_irq (fun _ => 0)
      (kpgpio_irq (fun _ => 0) (startup [184, 185, 188, 193, 194]) 184 100 (fun _ => 0)).drv
      184 200 (fun _ => 0)).drv.last_interrupt_time ≠ 100 := by
  decide

/-- C5, amended: from the start-up state, for timestamps `300 ≤ t1 < t2` (unsigned
32-bit), the call at `t1` is accepted and sets `last_interrupt_time = t1`; the call at
`t2` is rejected and leaves `last_interrupt_time = t1` when `t2 - t1 < 300`, and is
accepted and sets `last_interrupt_time = t2` when `t2 - t1 ≥ 300`. -/
theorem two_call_from_startup (mem : Int → Nat) (irqs : List Int) (irq1 irq2 : Int)
    (rd1 rd2 : Nat → Int) (t1 t2 : Nat) (h1 : 300 ≤ t1) (h12 : t1 < t2) (h2 : t2 < 2^32) :
    (kpgpio_irq mem (startup irqs) irq1 t1 rd1).drv.last_interrupt_time = t1 ∧
    (kpgpio_irq mem (startup irqs) irq1 t1 rd1).trace ≠ rejectedTrace ∧
    (t2 - t1 < 300 →
      (kpgpio_irq mem (kpgpio_irq mem (startup irqs) irq1 t1 rd1).drv irq2 t2 rd2).trace =
        rejectedTrace ∧
      (kpgpio_irq mem (kpgpio_irq mem (startup irqs) irq1 t1 rd1).drv irq2 t2
        rd2).drv.last_interrupt_time = t1) ∧
    (300 ≤ t2 - t1 →
      (kpgpio_irq mem (kpgpio_irq mem (startup irqs) irq1 t1 rd1).drv irq2 t2 rd2).trace ≠
        rejectedTrace ∧
      (kpgpio_irq mem (kpgpio_irq mem (startup irqs) irq1 t1 rd1).drv irq2 t2
        rd2).drv.last_interrupt_time = t2) := by
  have hw1 : ¬ inWindow (startup irqs) t1 := by
    rw [inWindow_iff (startup irqs) t1 (by omega) (Nat.zero_le _)]
    simp only [startup]; omega
  have ha1 := kpgpio_irq_accepted mem (startup irqs) irq1 t1 rd1 hw1
  refine ⟨ha1.1, ha1.2.2.2, ?_⟩
  exact second_call mem (kpgpio_irq mem (startup irqs) irq1 t1 rd1).drv irq2 rd2 t1 t2 ha1.1
    h12 h2

theorem two_call_from_startup_witness :
    (kpgpio_irq (fun _ => 0) (startup [184, 185, 188, 193, 194]) 184 1000
      (fun _ => 0)).drv.last_interrupt_time = 1000 ∧
    (kpgpio_irq (fun _ => 0) (startup [184, 185, 188, 193, 194]) 184 1000 (fun _ => 0)).trace ≠
      rejectedTrace ∧
    (1299 - 1000 < 300 →
      (kpgpio_irq (fun _ => 0) (kpgpio_irq (fun _ => 0) (startup [184, 185, 188, 193, 194]) 184
        1000 (fun _ => 0)).drv 185 1299 (fun _ => 0)).trace = rejectedTrace ∧
      (kpgpio_irq (fun _ => 0) (kpgpio_irq (fun _ => 0) (startup [184, 185, 188, 193, 194]) 184
        1000 (fun _ => 0)).drv 185 1299 (fun _ => 0)).drv.last_interrupt_time = 1000) ∧
    (300 ≤ 1299 - 1000 →
      (kpgpio_irq (fun _ => 0) (kpgpio_irq (fun _ => 0) (startup [184, 185, 188, 193, 194]) 184
        1000 (fun _ => 0)).drv 185 1299 (fun _ => 0)).trace ≠ rejectedTrace ∧
      (kpgpio_irq (fun _ => 0) (kpgpio_irq (fun _ => 0) (startup [184, 185, 188, 193, 194]) 184
        1000 (fun _ => 0)).drv 185 1299 (fun _ => 0)).drv.last_interrupt_time = 1299) :=
  two_call_from_startup (fun _ => 0) [184, 185, 188, 193, 194] 184 185 (fun _ => 0)
    (fun _ => 0) 1000 1299 (by decide) (by decide) (by decide)

/-- C6: all three column lines are HIGH in the start-up state, and every invocation of
`kpgpio_irq` that starts with all three HIGH ends with all three HIGH, whatever the irq,
the timestamp and the values read back. -/
theorem columns_restored (mem : Int → Nat) (irqs : List Int) (d : Driver) (irq : Int)
    (now : Nat) (rd : Nat → Int) (h : d.gpio_col = [HIGH, HIGH, HIGH]) :
    (startup irqs).gpio_col = [HIGH, HIGH, HIGH] ∧
    (kpgpio_irq mem d irq now rd).drv.gpio_col = [HIGH, HIGH, HIGH] := by
  refine ⟨rfl, ?_⟩
  simp only [kpgpio_irq, scan_eq]
  split_ifs <;> simp [Run.emit, report, strobe, Run.set_col, h]

theorem columns_restored_witness :
    (startup [184, 185, 188, 193, 194]).gpio_col = [HIGH, HIGH, HIGH] ∧
    (kpgpio_irq (fun _ => 0) (startup [184, 185, 188, 193, 194]) 193 5000
      (fun j => if j = 2 then 0 else 1)).drv.gpio_col = [HIGH, HIGH, HIGH] :=
  columns_restored (fun _ => 0) [184, 185, 188, 193, 194] (startup [184, 185, 188, 193, 194])
    193 5000 (fun j => if j = 2 then 0 else 1) rfl

/-- C7 fails on the code: with an irq that is not in `irq_pin`, `FindIndex` gives -1, and
when the first strobe reads LOW the handler reads `keyboardKeymap[-3]`, outside the table,
and sends four sink calls for whatever 16-bit value lies there. -/
theorem unresolved_row_reads_outside_table (mem : Int → Nat) :
    FindIndex (startup [184, 185, 188, 193, 194]).irq_pin NB_ROWS 7 = -1 ∧
    keymapReads (kpgpio_irq mem (startup [184, 185, 188, 193, 194]) 7 1000
      (fun _ => 0)).trace = [-3] ∧
    sinkTrace (kpgpio_irq mem (startup [184, 185, 188, 193, 194]) 7 1000 (fun _ => 0)) =
      keyTap (key_code (mem (-3) % 65536)) := by
  have hrow : FindIndex (startup [184, 185, 188, 193, 194]).irq_pin NB_ROWS 7 = -1 := by
    decide
  have hw : ¬ inWindow (startup [184, 185, 188, 193, 194]) 1000 := by decide
  have hm := kpgpio_irq_matched mem (startup [184, 185, 188, 193, 194]) 7 1000 (fun _ => 0)
    hw 0 (by decide) rfl (fun j hj => absurd hj (Nat.not_lt_zero j))
  rw [hrow] at hm
  refine ⟨hrow, ?_, ?_⟩
  · rw [hm.2.1]; rfl
  · rw [hm.1]
    simp [keymap_load, NB_COLUMN]

/-- C10: the handler of version 0.2 (early return in the loop, literal 300) and the one of
version 1.0 (`break`, `DEBOUNCE_TIME`) leave the same driver state and make the same calls
in the same order, once the log line of version 0.2 is dropped. -/
theorem revisions_agree (mem : Int → Nat) (d : Driver) (irq : Int) (now : Nat)
    (rd : Nat → Int) :
    eraseLog (kpgpio_irq_v02 mem d irq now rd).trace = (kpgpio_irq mem d irq now rd).trace ∧
    (kpgpio_irq_v02 mem d irq now rd).drv = (kpgpio_irq mem d irq now rd).drv := by
  simp only [kpgpio_irq, kpgpio_irq_v02, scan_eq, scan_v02_eq, DEBOUNCE_TIME]
  split_ifs <;>
    simp [eraseLog, Event.isLog, Run.emit, report, strobe, Run.set_col]

/-! ## Start-up rollback -/

/-- C8 fails on the code. When `request_irq` fails for row 2, version 1.0 returns
`-EBUSY` having released only the column array: the row array and the interrupts of rows
0 and 1 stay held. When `input_allocate_device` or `input_register_device` fails, all five
interrupts and the row array stay held. Version 0.2 releases nothing at all on these
paths. -/
theorem init_rollback_leaks :
    tphonekp_init (irqFails 2) =
      { ret := -16,
        st := { held := [Resource.gpio_rows, Resource.irq 0, Resource.irq 1],
                released := [Resource.gpio_col] } } ∧
    tphonekp_init allocFails =
      { ret := -12,
        st := { held := [Resource.gpio_rows, Resource.irq 0, Resource.irq 1, Resource.irq 2,
                  Resource.irq 3, Resource.irq 4],
                released := [Resource.gpio_col] } } ∧
    tphonekp_init registerFails =
      { ret := -12,
        st := { held := [Resource.gpio_rows, Resource.irq 0, Resource.irq 1, Resource.irq 2,
                  Resource.irq 3, Resource.irq 4],
                released := [Resource.input_dev, Resource.gpio_col] } } ∧
    tphonekp_init_v02 (irqFails 2) =
      { ret := -16,
        st := { held := [Resource.gpio_col, Resource.gpio_rows, Resource.irq 0,
                  Resource.irq 1],
                released := [] } } := by
  decide

end Toxphone
